import Mathlib

/-!
# Verification of the knowledge-aligner real-time context pipeline

A shallow embedding of the core of the `knowledge-aligner` repository
(`src/backend/`), together with theorems settling the frozen claims about it.

Modelling conventions:
* Python floats are modelled as `ℚ` (the claims never depend on floating-point
  rounding); machine timestamps (`time.time()`, `datetime`) as `Int` seconds.
* Python `set` becomes `Finset String`; Python `list` becomes `List`.
* Effectful calls (Redis, PostgreSQL, LLM clients) are modelled by explicit
  state passing / environment records; a fallible call returns `Bool`,
  `Option` or `Except` exactly where the Python code catches its exceptions.
-/

namespace KnowledgeAligner

/-! ## Entities and the context matcher
    (src/backend/realtime_entity_extraction.py) -/

/-- `ExtractedEntities` from `realtime_entity_extraction.py`: structured entity
extraction results.  `confidence` and `extraction_time_ms` are Python floats,
modelled as `ℚ`. -/
structure ExtractedEntities where
  reqs : List String
  components : List String
  users_mentioned : List String
  topics : List String
  confidence : ℚ
  extraction_time_ms : ℚ
  deriving DecidableEq, Repr

/-- `ContextMatcher.synonym_map`: synonym mapping for semantic relevance
fallback. -/
def synonym_map : List (String × List String) :=
  [("thermal", ["heat", "temperature", "cooling", "dissipation"]),
   ("power", ["supply", "voltage", "current", "battery", "electrical"]),
   ("motor", ["actuator", "drive", "stepper", "servo"]),
   ("pcb", ["board", "circuit", "layout"]),
   ("firmware", ["software", "code", "programming"]),
   ("testing", ["validation", "qa", "verification"])]

/-- `self.synonym_map.get(c, [])`. -/
def synonymsOf (c : String) : List String := (synonym_map.lookup c).getD []

/-- One iteration of the double loop in
`ContextMatcher._calculate_synonym_overlap`: 1.0 for a direct match (the
`continue` skips the synonym check), 0.7 partial credit for a synonym pair,
else 0. -/
def synonymPairScore (b_comp buf_comp : String) : ℚ :=
  if b_comp = buf_comp then 1
  else
    let b_synonyms := synonymsOf b_comp
    let buf_synonyms := synonymsOf buf_comp
    if buf_comp ∈ b_synonyms ∨ b_comp ∈ buf_synonyms ∨
        (b_synonyms.toFinset ∩ buf_synonyms.toFinset).Nonempty then
      (0.7 : ℚ)
    else 0

/-- `ContextMatcher._calculate_synonym_overlap`: `matches` summed over all
pairs, divided by `max(total_comparisons, 1)`.  The Python double loop over two
sets is an order-independent sum, so `Finset.sum` is an exact model. -/
def calculate_synonym_overlap (b_components buffer_components : Finset String) : ℚ :=
  let matched := b_components.sum fun b => buffer_components.sum fun c => synonymPairScore b c
  let total_comparisons := b_components.card * buffer_components.card
  matched / ((max total_comparisons 1 : ℕ) : ℚ)

/-- The `core_components` set from tier 2 of
`ContextMatcher.calculate_overlap_score`. -/
def core_components : Finset String := {"motor", "pcb", "firmware", "power_supply"}

/-- Union of the `reqs` of all buffered entities
(the `all_buffer_reqs` accumulation loop). -/
def bufferReqs (buffer_entities : List ExtractedEntities) : Finset String :=
  buffer_entities.foldl (fun s e => s ∪ e.reqs.toFinset) ∅

/-- Union of the `components` of all buffered entities. -/
def bufferComponents (buffer_entities : List ExtractedEntities) : Finset String :=
  buffer_entities.foldl (fun s e => s ∪ e.components.toFinset) ∅

/-- Union of the `topics` of all buffered entities. -/
def bufferTopics (buffer_entities : List ExtractedEntities) : Finset String :=
  buffer_entities.foldl (fun s e => s ∪ e.topics.toFinset) ∅

/-- `ContextMatcher.calculate_overlap_score`: tiered, ordered evaluation
returning `(confidence_level, numeric_score)`. -/
def calculate_overlap_score (b_entities : ExtractedEntities)
    (buffer_entities : List ExtractedEntities) : String × ℚ :=
  if buffer_entities.isEmpty then ("none", 0) else
  let all_buffer_reqs := bufferReqs buffer_entities
  let all_buffer_components := bufferComponents buffer_entities
  let all_buffer_topics := bufferTopics buffer_entities
  -- Tier 1: REQ-ID exact match (highest confidence)
  let b_reqs := b_entities.reqs.toFinset
  let req_matches := (b_reqs ∩ all_buffer_reqs).card
  if 0 < req_matches then ("high", (req_matches : ℚ) * 2.0) else
  -- Tier 2: component exact match
  let b_components := b_entities.components.toFinset
  let component_matches := (b_components ∩ all_buffer_components).card
  if 2 ≤ component_matches then ("high", (component_matches : ℚ) * 1.5)
  else if component_matches = 1 then
    (if (b_components ∩ core_components ∩ all_buffer_components).Nonempty then
      ("high", (1.5 : ℚ))
    else ("medium", (1.0 : ℚ)))
  else
  -- Tier 3: topic overlap
  let b_topics := b_entities.topics.toFinset
  let topic_matches := (b_topics ∩ all_buffer_topics).card
  if 2 ≤ topic_matches then ("medium", (topic_matches : ℚ) * 0.8) else
  -- Tier 4: synonym matching
  let synonym_score := calculate_synonym_overlap b_components all_buffer_components
  if (0.6 : ℚ) ≤ synonym_score then ("medium", synonym_score)
  else ("none", 0)

/-- `confidence_levels` dict in `should_inject_context`. -/
def confidence_levels : List (String × Nat) :=
  [("high", 3), ("medium", 2), ("low", 1), ("none", 0)]

/-- `threshold_levels` dict in `should_inject_context`. -/
def threshold_levels : List (String × Nat) :=
  [("high", 3), ("medium", 2), ("low", 1)]

/-- `ContextMatcher.should_inject_context`: guard on empty extraction, then
overlap scoring, then the ordinal threshold comparison.
Returns `(should_inject, confidence_level, score)`. -/
def should_inject_context (b_entities : ExtractedEntities)
    (buffer_entities : List ExtractedEntities) (confidence_threshold : String) :
    Bool × String × ℚ :=
  -- Guard: no entities extracted from B's message
  if b_entities.reqs.isEmpty && b_entities.components.isEmpty &&
      b_entities.topics.isEmpty then
    (false, "none", 0)
  else
    let cs := calculate_overlap_score b_entities buffer_entities
    let required_level := (threshold_levels.lookup confidence_threshold).getD 2
    let actual_level := (confidence_levels.lookup cs.1).getD 0
    (decide (required_level ≤ actual_level) && decide (0 < cs.2), cs.1, cs.2)

/-! ## Decision worthiness (src/backend/two_tier_orchestrator.py) -/

/-- Python substring test `needle in hay`. -/
def strContains (hay needle : String) : Bool := decide (needle.toList <:+: hay.toList)

/-- The fixed `decision_keywords` list from
`TwoTierOrchestrator._is_decision_worthy` (including the duplicated
`"requirement"` entry of the source). -/
def decision_keywords : List String :=
  ["decision", "decided", "approved", "selected", "chose",
   "updated", "changed", "requirement", "spec", "requirement"]

/-- `TwoTierOrchestrator._is_decision_worthy`: ordered criteria for judging a
message decision-worthy. -/
def is_decision_worthy (entities : ExtractedEntities) (message_text : String) : Bool :=
  -- REQ mentions are strong decision indicators
  if !entities.reqs.isEmpty then true
  else
    let has_decision_keyword :=
      decision_keywords.any fun keyword => strContains message_text.toLower keyword
    -- Multiple components + decision keywords
    if 2 ≤ entities.components.length && has_decision_keyword then true
    -- High confidence extraction with engineering topics
    else if (0.8 : ℚ) < entities.confidence && 2 ≤ entities.topics.length then true
    else false

/-! ## Claim theorems: matcher and decision worthiness -/

/-- C3: whenever the new message's requirement-ID set intersects the union of
the buffered requirement-ID sets, `calculate_overlap_score` returns tier
`high` with score `2.0 ×` the intersection size, regardless of component,
topic or synonym overlap. -/
theorem overlap_req_match_high (b : ExtractedEntities) (buf : List ExtractedEntities)
    (h : 0 < (b.reqs.toFinset ∩ bufferReqs buf).card) :
    calculate_overlap_score b buf =
      ("high", ((b.reqs.toFinset ∩ bufferReqs buf).card : ℚ) * 2.0) := by
  have hbuf : buf.isEmpty = false := by
    cases buf with
    | nil => simp [bufferReqs] at h
    | cons x xs => rfl
  unfold calculate_overlap_score
  rw [hbuf]
  simp only [Bool.false_eq_true, if_false, if_pos h]

/-- Witness for C3 at a concrete input. -/
theorem overlap_req_match_high_witness :
    0 < ((⟨["REQ-245"], ["motor"], [], ["torque"], 0.9, 1⟩ :
        ExtractedEntities).reqs.toFinset ∩
        bufferReqs [⟨["REQ-245", "REQ-9"], [], [], [], 0.8, 1⟩]).card ∧
    calculate_overlap_score ⟨["REQ-245"], ["motor"], [], ["torque"], 0.9, 1⟩
        [⟨["REQ-245", "REQ-9"], [], [], [], 0.8, 1⟩] =
      ("high", (((⟨["REQ-245"], ["motor"], [], ["torque"], 0.9, 1⟩ :
        ExtractedEntities).reqs.toFinset ∩
        bufferReqs [⟨["REQ-245", "REQ-9"], [], [], [], 0.8, 1⟩]).card : ℚ) * 2.0) :=
  ⟨by decide, overlap_req_match_high _ _ (by decide)⟩

/-- C4: `should_inject_context` rejects (returns `(false, none, 0)`) whenever
the new message's requirement, component and topic sets are all empty, for
every buffer content and threshold. -/
theorem inject_gate_empty_entities (b : ExtractedEntities)
    (buf : List ExtractedEntities) (threshold : String)
    (h1 : b.reqs = []) (h2 : b.components = []) (h3 : b.topics = []) :
    should_inject_context b buf threshold = (false, "none", 0) := by
  unfold should_inject_context
  simp [h1, h2, h3]

/-- Witness for C4 at a concrete input. -/
theorem inject_gate_empty_entities_witness :
    (⟨[], [], ["@alice"], [], 0.9, 1⟩ : ExtractedEntities).reqs = [] ∧
    should_inject_context ⟨[], [], ["@alice"], [], 0.9, 1⟩
        [⟨["REQ-245"], ["motor"], [], [], 0.8, 1⟩] "low" = (false, "none", 0) :=
  ⟨rfl, inject_gate_empty_entities _ _ _ rfl rfl rfl⟩

/-- C5: a message is decision-worthy iff it references a requirement ID, or
names at least 2 components while containing a decision keyword, or has
extraction confidence above 0.8 together with at least 2 topics. -/
theorem decision_worthy_iff (e : ExtractedEntities) (t : String) :
    is_decision_worthy e t = true ↔
      (e.reqs ≠ [] ∨
       (2 ≤ e.components.length ∧
        ∃ k ∈ decision_keywords, strContains t.toLower k = true) ∨
       ((0.8 : ℚ) < e.confidence ∧ 2 ≤ e.topics.length)) := by
  unfold is_decision_worthy
  by_cases h1 : e.reqs = []
  · rw [show e.reqs.isEmpty = true by simp [h1]]
    simp only [Bool.not_true, Bool.false_eq_true, if_false]
    by_cases h2 : (decide (2 ≤ e.components.length) &&
        decision_keywords.any fun keyword => strContains t.toLower keyword) = true
    · rw [if_pos h2]
      rw [Bool.and_eq_true, decide_eq_true_eq, List.any_eq_true] at h2
      simp only [true_iff]
      exact Or.inr (Or.inl h2)
    · rw [if_neg h2]
      by_cases h3 : (decide ((0.8 : ℚ) < e.confidence) &&
          decide (2 ≤ e.topics.length)) = true
      · rw [if_pos h3]
        rw [Bool.and_eq_true, decide_eq_true_eq, decide_eq_true_eq] at h3
        simp only [true_iff]
        exact Or.inr (Or.inr h3)
      · rw [if_neg h3]
        simp only [Bool.false_eq_true, false_iff]
        rintro (h0 | ⟨hl, k, hk, hck⟩ | ⟨hc, ht⟩)
        · exact h0 h1
        · exact h2 (by
            simp only [Bool.and_eq_true, decide_eq_true_eq, List.any_eq_true]
            exact ⟨hl, k, hk, hck⟩)
        · exact h3 (by
            simp only [Bool.and_eq_true, decide_eq_true_eq]
            exact ⟨hc, ht⟩)
  · have hie : e.reqs.isEmpty = false := by
      cases hq : e.reqs with
      | nil => exact absurd hq h1
      | cons a l => rfl
    rw [hie]
    simp only [Bool.not_false, if_true, true_iff]
    exact Or.inl h1

/-- C10: `should_inject_context` with a threshold string outside
`high`/`medium`/`low` behaves exactly as with threshold `medium`
(`threshold_levels.get(t, 2)` defaults to ordinal level 2). -/
theorem inject_unknown_threshold_as_medium (b : ExtractedEntities)
    (buf : List ExtractedEntities) (t : String)
    (h1 : t ≠ "high") (h2 : t ≠ "medium") (h3 : t ≠ "low") :
    should_inject_context b buf t = should_inject_context b buf "medium" := by
  unfold should_inject_context
  have hl : threshold_levels.lookup t = none := by
    simp only [threshold_levels, List.lookup]
    rw [show (t == "high") = false by simpa using h1,
        show (t == "medium") = false by simpa using h2,
        show (t == "low") = false by simpa using h3]
  have hm : threshold_levels.lookup "medium" = some 2 := by rfl
  rw [hl, hm]
  rfl

/-- Witness for C10 at a concrete input. -/
theorem inject_unknown_threshold_as_medium_witness :
    ("banana" ≠ "high") ∧
    should_inject_context ⟨["REQ-1"], [], [], [], 0.6, 1⟩
        [⟨["REQ-1"], [], [], [], 0.6, 1⟩] "banana" =
      should_inject_context ⟨["REQ-1"], [], [], [], 0.6, 1⟩
        [⟨["REQ-1"], [], [], [], 0.6, 1⟩] "medium" :=
  ⟨by decide, inject_unknown_threshold_as_medium _ _ _ (by decide) (by decide) (by decide)⟩

/-! ## Redis live context buffer (src/backend/redis_context_buffer.py)

The buffer is a per-channel Redis sorted set keyed by `time.time()` scores,
with a whole-key TTL.  One channel is modelled as a list of
`(message, score)` pairs kept in ascending score order together with the
absolute expiry deadline of the key.  All operations take the current clock
`now : Int` explicitly. -/

/-- The `entities` JSON payload stored with each buffered message
(`reqs`, `components`, `users_mentioned`, `topics` plus the `confidence`
the orchestrator adds in `process_incoming_message`). -/
structure EntityPayload where
  reqs : List String
  components : List String
  users_mentioned : List String
  topics : List String
  confidence : ℚ
  deriving DecidableEq, Repr

/-- `LiveContextMessage` from `redis_context_buffer.py`. -/
structure LiveContextMessage where
  message_id : String
  user_id : String
  text : String
  entities : EntityPayload
  decision_id : Option String
  timestamp : String
  channel_id : String
  deriving DecidableEq, Repr

/-- `RedisContextBuffer.BUFFER_TTL` (2 hours in seconds). -/
def BUFFER_TTL : Int := 7200

/-- `RedisContextBuffer.MAX_MESSAGES_PER_CHANNEL`. -/
def MAX_MESSAGES_PER_CHANNEL : Nat := 30

/-- One channel's sorted-set state: entries in ascending score order plus the
key's absolute TTL deadline (`none` = key absent / no TTL). -/
structure ChannelBuffer where
  entries : List (LiveContextMessage × Int)
  expireAt : Option Int
  deriving DecidableEq, Repr

/-- A channel that was never written (or whose key expired). -/
def emptyBuffer : ChannelBuffer := ⟨[], none⟩

/-- Redis lazy expiry: any command on a key whose TTL deadline has passed
behaves as if the key were deleted. -/
def touch (now : Int) (b : ChannelBuffer) : ChannelBuffer :=
  match b.expireAt with
  | some e => if e ≤ now then emptyBuffer else b
  | none => b

/-- `ZADD key {member: score}`: insert keeping ascending score order.  (Redis
breaks score ties by member lexicographic order; the theorems below use
strictly increasing clocks, so tie order is never exercised.) -/
def zadd (p : LiveContextMessage × Int) :
    List (LiveContextMessage × Int) → List (LiveContextMessage × Int)
  | [] => [p]
  | q :: rest => if p.2 < q.2 then p :: q :: rest else q :: zadd p rest

/-- `ZREMRANGEBYRANK key 0 -(MAX_MESSAGES_PER_CHANNEL + 1)`: the stop index
`-31` resolves to `len - 31`; when that is non-negative, ranks
`0 .. len - 31` (the oldest entries) are removed, keeping the newest 30;
otherwise nothing is removed. -/
def zremrangebyrankOldest (l : List (LiveContextMessage × Int)) :
    List (LiveContextMessage × Int) :=
  if MAX_MESSAGES_PER_CHANNEL + 1 ≤ l.length then
    l.drop (l.length - MAX_MESSAGES_PER_CHANNEL)
  else l

/-- `RedisContextBuffer.add_message`: ZADD with `time.time()` as score, trim
to the newest 30, then `EXPIRE key BUFFER_TTL` (the TTL refreshes on each new
message). -/
def add_message (now : Int) (message : LiveContextMessage) (b : ChannelBuffer) :
    ChannelBuffer :=
  let b := touch now b
  { entries := zremrangebyrankOldest (zadd (message, now) b.entries),
    expireAt := some (now + BUFFER_TTL) }

/-- `RedisContextBuffer.get_recent_context`: `ZREVRANGE key 0 (max_messages-1)`
(newest first), then filter by `max_age_minutes`.  (JSON decoding of the
structurally-stored messages always succeeds in this model.) -/
def get_recent_context (now : Int) (b : ChannelBuffer)
    (max_messages : Nat := 30) (max_age_minutes : Int := 120) :
    List LiveContextMessage :=
  let b := touch now b
  let raw_messages := (b.entries.reverse).take max_messages
  let cutoff_timestamp := now - max_age_minutes * 60
  (raw_messages.filter fun p => cutoff_timestamp ≤ p.2).map (·.1)

/-- A sequence of `add_message` calls on one channel, oldest first. -/
def add_all (adds : List (LiveContextMessage × Int)) (b : ChannelBuffer) :
    ChannelBuffer :=
  adds.foldl (fun b p => add_message p.2 p.1 b) b

/-! ### Buffer lemmas -/

/-- Inserting with a score strictly above every present score appends at the
end. -/
theorem zadd_append (p : LiveContextMessage × Int)
    (l : List (LiveContextMessage × Int)) (h : ∀ q ∈ l, q.2 < p.2) :
    zadd p l = l ++ [p] := by
  induction l with
  | nil => rfl
  | cons q rest ih =>
    have hq : q.2 < p.2 := h q (by simp)
    simp only [zadd, if_neg (by omega : ¬ p.2 < q.2), List.cons_append,
      List.cons.injEq, true_and]
    exact ih fun r hr => h r (by simp [hr])

/-- The trim keeps a suffix of its input and never leaves more than 30
entries when given at most 31. -/
theorem zrem_suffix (l : List (LiveContextMessage × Int))
    (hl : l.length ≤ MAX_MESSAGES_PER_CHANNEL + 1) :
    ∃ k ≤ l.length, zremrangebyrankOldest l = l.drop k ∧
      (zremrangebyrankOldest l).length ≤ MAX_MESSAGES_PER_CHANNEL := by
  unfold zremrangebyrankOldest
  by_cases h : MAX_MESSAGES_PER_CHANNEL + 1 ≤ l.length
  · refine ⟨l.length - MAX_MESSAGES_PER_CHANNEL, by omega, by simp [h], ?_⟩
    simp only [if_pos h, List.length_drop]
    omega
  · exact ⟨0, by omega, by simp [h], by simp [h]; omega⟩

/-- `touch` either keeps the stored entries or wipes the key. -/
theorem touch_entries (now : Int) (b : ChannelBuffer) :
    (touch now b).entries = b.entries ∨ (touch now b).entries = [] := by
  unfold touch
  cases b.expireAt with
  | none => exact Or.inl rfl
  | some e =>
    by_cases he : e ≤ now
    · exact Or.inr (by simp [he, emptyBuffer])
    · exact Or.inl (by simp [he])

/-- Unfolding equation for `add_message`'s stored entries. -/
theorem add_message_entries (now : Int) (m : LiveContextMessage)
    (b : ChannelBuffer) :
    (add_message now m b).entries =
      zremrangebyrankOldest (zadd (m, now) (touch now b).entries) := rfl

/-- Unfolding equation for `get_recent_context`. -/
theorem get_recent_context_eq (now : Int) (b : ChannelBuffer)
    (mm : Nat) (ma : Int) :
    get_recent_context now b mm ma =
      (((touch now b).entries.reverse.take mm).filter
        fun p => now - ma * 60 ≤ p.2).map (·.1) := rfl

/-- After any strictly-clock-increasing sequence of adds starting from an
empty channel, the stored entries are a suffix of the add sequence of length
at most 30. -/
theorem add_all_entries_suffix (adds : List (LiveContextMessage × Int))
    (hinc : (adds.map (·.2)).Pairwise (· < ·)) :
    ∃ n ≤ adds.length, (add_all adds emptyBuffer).entries = adds.drop n ∧
      (add_all adds emptyBuffer).entries.length ≤ MAX_MESSAGES_PER_CHANNEL := by
  induction adds using List.reverseRecOn with
  | nil => exact ⟨0, by simp, rfl, by decide⟩
  | append_singleton as a ih =>
    have hinc' : (as.map (·.2)).Pairwise (· < ·) := by
      rw [List.map_append] at hinc
      exact (List.pairwise_append.mp hinc).1
    have hlast : ∀ q ∈ as, q.2 < a.2 := by
      rw [List.map_append, List.pairwise_append] at hinc
      intro q hq
      exact hinc.2.2 q.2 (List.mem_map_of_mem _ hq) a.2 (by simp)
    obtain ⟨n, hn, hentries, hlen⟩ := ih hinc'
    have hfold : add_all (as ++ [a]) emptyBuffer =
        add_message a.2 a.1 (add_all as emptyBuffer) := by
      simp [add_all, List.foldl_append]
    rw [hfold, add_message_entries]
    rcases touch_entries a.2 (add_all as emptyBuffer) with ht | ht
    · -- key still alive: entries are `as.drop n`, the new message appends
      rw [ht, hentries]
      have hzadd : zadd (a.1, a.2) (as.drop n) = as.drop n ++ [a] :=
        zadd_append _ _ fun q hq => hlast q (List.mem_of_mem_drop hq)
      have hlen' : (as.drop n).length ≤ MAX_MESSAGES_PER_CHANNEL := by
        rw [hentries] at hlen
        exact hlen
      obtain ⟨k, hk, hzrem, hzlen⟩ := zrem_suffix (as.drop n ++ [a]) (by
        simp only [List.length_append, List.length_drop, List.length_cons,
          List.length_nil]
        simp only [List.length_drop] at hlen'
        omega)
      have hdropped : as.drop n ++ [a] = (as ++ [a]).drop n := by
        rw [List.drop_append_eq_append_drop,
          show n - as.length = 0 by omega]
        rfl
      refine ⟨n + k, ?_, ?_, ?_⟩
      · simp only [List.length_append, List.length_drop, List.length_cons,
          List.length_nil] at hk ⊢
        omega
      · rw [hzadd, hzrem, hdropped, List.drop_drop]
      · rw [hzadd]
        exact hzlen
    · -- key expired right before this add: only the new message survives
      rw [ht]
      refine ⟨as.length, by simp, ?_, ?_⟩
      · show zremrangebyrankOldest (zadd (a.1, a.2) []) = (as ++ [a]).drop as.length
        rw [show zadd (a.1, a.2) [] = [a] from rfl,
          show zremrangebyrankOldest [a] = [a] from rfl,
          List.drop_append_eq_append_drop, List.drop_length]
        simp
      · show (zremrangebyrankOldest (zadd (a.1, a.2) [])).length ≤
          MAX_MESSAGES_PER_CHANNEL
        rw [show zremrangebyrankOldest (zadd (a.1, a.2) []) = [a] from rfl]
        simp [MAX_MESSAGES_PER_CHANNEL]

/-- On a strictly score-descending list, keeping the entries above a cutoff
keeps exactly a prefix. -/
theorem filter_cutoff_eq_takeWhile (c : Int) (l : List (LiveContextMessage × Int))
    (hd : l.Pairwise fun p q => q.2 < p.2) :
    (l.filter fun p => c ≤ p.2) = l.takeWhile fun p => c ≤ p.2 := by
  induction l with
  | nil => rfl
  | cons x xs ih =>
    rw [List.pairwise_cons] at hd
    by_cases hx : c ≤ x.2
    · simp only [List.filter_cons, List.takeWhile_cons, decide_eq_true hx,
        if_true]
      rw [ih hd.2]
    · simp only [List.filter_cons, List.takeWhile_cons,
        decide_eq_false hx, if_false, Bool.false_eq_true]
      rw [List.filter_eq_nil_iff.mpr]
      intro q hq
      have : q.2 < x.2 := hd.1 q hq
      simp only [decide_eq_true_eq]
      omega

/-! ### Claim theorems: buffer bound and TTL -/

/-- C1: after more than `MAX_MESSAGES_PER_CHANNEL = 30` strictly
clock-increasing `add_message` calls on one channel, `get_recent_context`
returns at most 30 messages, and they are exactly the most recent `j ≤ 30`
added messages by timestamp, newest first. -/
theorem buffer_bound_most_recent (adds : List (LiveContextMessage × Int))
    (now : Int)
    (hinc : (adds.map (·.2)).Pairwise (· < ·))
    (_hk : MAX_MESSAGES_PER_CHANNEL < adds.length) :
    (get_recent_context now (add_all adds emptyBuffer) 30 120).length ≤ 30 ∧
    ∃ j ≤ 30, get_recent_context now (add_all adds emptyBuffer) 30 120 =
      ((adds.map (·.1)).reverse).take j := by
  obtain ⟨n, hn, hentries, hlen⟩ := add_all_entries_suffix adds hinc
  have key : ∃ m, (touch now (add_all adds emptyBuffer)).entries =
      adds.drop m := by
    rcases touch_entries now (add_all adds emptyBuffer) with ht | ht
    · exact ⟨n, by rw [ht, hentries]⟩
    · exact ⟨adds.length, by rw [ht, List.drop_length]⟩
  obtain ⟨m, hm⟩ := key
  have hpair : (adds.drop m).Pairwise fun p q => p.2 < q.2 :=
    List.pairwise_map.mp
      (List.Pairwise.sublist ((List.drop_sublist m adds).map (·.2)) hinc)
  have hsorted :
      (((touch now (add_all adds emptyBuffer)).entries.reverse).take 30).Pairwise
        fun p q => q.2 < p.2 := by
    rw [hm]
    exact (List.pairwise_reverse.mpr hpair).sublist (List.take_sublist _ _)
      |>.imp fun h => h
  set w := ((((touch now (add_all adds emptyBuffer)).entries.reverse).take
      30).takeWhile fun p => now - 120 * 60 ≤ p.2) with hw
  have hres : get_recent_context now (add_all adds emptyBuffer) 30 120 =
      w.map (·.1) := by
    rw [get_recent_context_eq, filter_cutoff_eq_takeWhile _ _ hsorted]
  have hprefix : w <+: adds.reverse := by
    refine List.IsPrefix.trans (List.takeWhile_prefix _) ?_
    refine List.IsPrefix.trans (List.take_prefix _ _) ?_
    rw [hm]
    exact List.reverse_prefix.mpr (List.drop_suffix m adds)
  have hlen30 : w.length ≤ 30 :=
    le_trans (List.takeWhile_prefix _).length_le (by simp [List.length_take])
  have h2 : w = adds.reverse.take w.length :=
    List.prefix_iff_eq_take.mp hprefix
  refine ⟨?_, ⟨w.length, hlen30, ?_⟩⟩
  · rw [hres, List.length_map]
    exact hlen30
  · rw [hres]
    calc w.map (·.1)
        = (adds.reverse.take w.length).map (·.1) := congrArg _ h2
      _ = (adds.reverse.map (·.1)).take w.length := List.map_take _ _ _
      _ = ((adds.map (·.1)).reverse).take w.length := by
          rw [List.map_reverse]

/-- A throwaway entity payload for concrete buffer scenarios (confidence kept
integral so that kernel evaluation of `ℚ` equality stays cheap). -/
def samplePayload : EntityPayload := ⟨[], [], [], [], 1⟩

/-- Concrete buffered message number `i`. -/
def sampleMsg (i : Nat) : LiveContextMessage :=
  ⟨toString i, "alice", "motor torque", samplePayload, none, toString i,
   "hardware-team"⟩

/-- 31 adds at clocks 0, 1, ..., 30. -/
def sampleAdds : List (LiveContextMessage × Int) :=
  (List.range 31).map fun i => (sampleMsg i, (i : Int))

/-- Witness for C1 at a concrete 31-add sequence. -/
theorem buffer_bound_most_recent_witness :
    ((sampleAdds.map (·.2)).Pairwise (· < ·) ∧
      MAX_MESSAGES_PER_CHANNEL < sampleAdds.length) ∧
    ((get_recent_context 30 (add_all sampleAdds emptyBuffer) 30 120).length ≤ 30 ∧
    ∃ j ≤ 30, get_recent_context 30 (add_all sampleAdds emptyBuffer) 30 120 =
      ((sampleAdds.map (·.1)).reverse).take j) :=
  ⟨⟨by decide, by decide⟩,
   buffer_bound_most_recent sampleAdds 30 (by decide) (by decide)⟩

/-- The two-message scenario refuting C2: a message at clock 0, a second at
clock 7000 (which refreshes the key TTL to 14200). -/
def staleBuffer : ChannelBuffer :=
  add_message 7000 (sampleMsg 1) (add_message 0 (sampleMsg 0) emptyBuffer)

/-- C2 counterexample: queried at clock 7300 with `max_age_minutes = 130`,
the buffer still returns the message added at clock 0, whose age
7300 s exceeds `BUFFER_TTL = 7200` s — the key TTL was refreshed by the
newer add and `get_recent_context` filters only by `max_age_minutes`. -/
theorem ttl_claim_counterexample :
    (sampleMsg 0, (0 : Int)) ∈ staleBuffer.entries ∧
    sampleMsg 0 ∈ get_recent_context 7300 staleBuffer 30 130 ∧
    BUFFER_TTL < (7300 : Int) - 0 := by
  refine ⟨by decide, by decide, by decide⟩

/-- C2 (amended): `get_recent_context` respects the caller's `max_age_minutes`
window, and once `BUFFER_TTL` has elapsed since the channel's *last add*
(each add sets the key's expiry to its clock plus `BUFFER_TTL`) nothing is
returned at all.  The original claim fails because the key TTL slides with
every add while individual entries are filtered only by `max_age_minutes`
(see the counterexample). -/
theorem ttl_amended (b : ChannelBuffer) (now : Int) (mm : Nat) (ma : Int) :
    (∀ msg ∈ get_recent_context now b mm ma,
      ∃ s, (msg, s) ∈ b.entries ∧ now - ma * 60 ≤ s) ∧
    (∀ e, b.expireAt = some e → e ≤ now →
      get_recent_context now b mm ma = []) ∧
    (∀ t msg, (add_message t msg b).expireAt = some (t + BUFFER_TTL)) := by
  refine ⟨?_, ?_, fun t msg => rfl⟩
  · intro msg hmsg
    rw [get_recent_context_eq] at hmsg
    simp only [List.mem_map, List.mem_filter, decide_eq_true_eq] at hmsg
    obtain ⟨p, ⟨hpmem, hpage⟩, hpe⟩ := hmsg
    have hp1 : p ∈ (touch now b).entries :=
      List.mem_reverse.mp (List.Sublist.mem hpmem (List.take_sublist _ _))
    have hp2 : p ∈ b.entries := by
      rcases touch_entries now b with ht | ht
      · rwa [ht] at hp1
      · rw [ht] at hp1
        cases hp1
    refine ⟨p.2, ?_, hpage⟩
    rw [← hpe]
    exact hp2
  · intro e he hnow
    rw [get_recent_context_eq]
    unfold touch
    rw [he]
    simp [hnow, emptyBuffer]

/-- Witness for C2's amended theorem at a concrete buffer and query. -/
theorem ttl_amended_witness :
    sampleMsg 1 ∈ get_recent_context 7300 staleBuffer 30 130 ∧
    ∃ s, (sampleMsg 1, s) ∈ staleBuffer.entries ∧ (7300 : Int) - 130 * 60 ≤ s :=
  ⟨by decide, (ttl_amended staleBuffer 7300 30 130).1 _ (by decide)⟩

/-! ## Python's stable sort

`list.sort` / `sorted` in CPython is a stable sort; it is modelled by
insertion sort (structurally recursive, hence kernel-computable), which is
also stable and places an element before the first existing element it does
not exceed. -/

/-- Python's stable `sorted` with boolean order `le`. -/
def pySort {α : Type} (le : α → α → Bool) (l : List α) : List α :=
  l.insertionSort fun a b => le a b = true

/-- Sorting does not change membership. -/
theorem mem_pySort {α : Type} {le : α → α → Bool} {a : α} {l : List α} :
    a ∈ pySort le l ↔ a ∈ l := (List.perm_insertionSort _ l).mem_iff

/-- For a total transitive order the sorted output is pairwise ordered. -/
theorem pairwise_pySort {α : Type} {le : α → α → Bool}
    (htrans : ∀ a b c, le a b = true → le b c = true → le a c = true)
    (htotal : ∀ a b, le a b = true ∨ le b a = true) (l : List α) :
    (pySort le l).Pairwise fun a b => le a b = true := by
  haveI : IsTotal α (fun a b => le a b = true) := ⟨htotal⟩
  haveI : IsTrans α (fun a b => le a b = true) := ⟨fun a b c => htrans a b c⟩
  exact List.sorted_insertionSort _ l

/-! ## Hybrid retrieval (src/backend/hybrid_retrieval.py) -/

/-- A row of the `decisions` table carrying the columns used by
`HybridRetrieval` (SELECT list of `sql_filter` plus the filter columns). -/
structure DecisionRow where
  decision_id : Nat
  decision_text : String
  author_name : String
  author_role : String
  affected_components : List String
  referenced_reqs : List String
  timestamp : Int
  before_after : Option (List (String × String))
  embedding : Option (List ℚ)
  similarity_score : Option ℚ
  embedding_status : String
  author_user_id : String
  decision_type : String
  deriving DecidableEq, Repr

/-- `RetrievalResult` dataclass. -/
structure RetrievalResult where
  decision_id : Nat
  decision_text : String
  author_name : String
  author_role : String
  affected_components : List String
  referenced_reqs : List String
  timestamp : Int
  before_after : List (String × String)
  similarity_score : ℚ
  embedding : Option (List ℚ)
  deriving DecidableEq, Repr

/-- `RetrievalStats` dataclass. -/
structure RetrievalStats where
  total_time_ms : ℚ
  sql_filter_time_ms : ℚ
  semantic_search_time_ms : ℚ
  candidates_found : Nat
  final_results : Nat
  query_type : String
  deriving DecidableEq, Repr

/-- The WHERE clause assembled by `HybridRetrieval.sql_filter`:
`embedding_status = 'embedded'`, array overlap with `user_components` (only
when that list is non-empty), the time window, and the optional author /
decision-type filters. -/
def sqlFilterPred (now : Int) (user_components : List String)
    (time_filter_days : Int) (author_filter : Option String)
    (decision_type : Option String) (r : DecisionRow) : Bool :=
  r.embedding_status == "embedded" &&
  (user_components.isEmpty ||
    user_components.any fun c => r.affected_components.contains c) &&
  decide (now - time_filter_days * 86400 ≤ r.timestamp) &&
  (match author_filter with | some a => r.author_user_id == a | none => true) &&
  (match decision_type with | some t => r.decision_type == t | none => true)

/-- `HybridRetrieval.sql_filter`: WHERE-filter the decisions table,
`ORDER BY timestamp DESC`, `LIMIT limit` (the sort is a stable merge sort of
the table in storage order). -/
def sql_filter (db : List DecisionRow) (now : Int) (user_components : List String)
    (time_filter_days : Int) (author_filter : Option String)
    (decision_type : Option String) (limit : Nat) : List DecisionRow :=
  (pySort (fun a b => decide (b.timestamp ≤ a.timestamp))
    (db.filter
      (sqlFilterPred now user_components time_filter_days author_filter
        decision_type))).take limit

/-- `np.dot` on two embedding vectors. -/
def dotProduct (v w : List ℚ) : ℚ := (List.zipWith (· * ·) v w).sum

/-- Building a `RetrievalResult` from a candidate row
(`candidate['before_after'] or {}` becomes `getD []`). -/
def rowToResult (c : DecisionRow) (sim : ℚ) (emb : Option (List ℚ)) :
    RetrievalResult :=
  ⟨c.decision_id, c.decision_text, c.author_name, c.author_role,
   c.affected_components, c.referenced_reqs, c.timestamp,
   c.before_after.getD [], sim, emb⟩

/-- `HybridRetrieval.semantic_search`: score every candidate by dot product
with the query embedding (similarity 0.0 when the stored embedding is
missing), sort by similarity descending (Python's stable sort with
`reverse=True`), truncate to `limit`. -/
def semantic_search (query_embedding : List ℚ) (candidates : List DecisionRow)
    (limit : Nat) : List RetrievalResult :=
  if candidates.isEmpty then []
  else
    (pySort (fun a b => decide (b.similarity_score ≤ a.similarity_score))
      (candidates.map fun c =>
        rowToResult c
          (match c.embedding with
           | some e => dotProduct query_embedding e
           | none => 0)
          c.embedding)).take limit

/-- Environment of one `hybrid_search` call: the decisions table, the
`user_profiles` table backing `get_user_components`, the wall clock, the
sentence-transformer encoder, and the elapsed-time readings recorded by the
instrumentation (wall-clock measurements are environment inputs). -/
structure RetrievalEnv where
  db : List DecisionRow
  user_profiles : List (String × List String)
  now : Int
  encode : String → List ℚ
  sql_elapsed_ms : ℚ
  semantic_elapsed_ms : ℚ
  total_elapsed_ms : ℚ

/-- `HybridRetrieval.get_user_components`: `owned_components` of the user's
profile row, `[]` when absent. -/
def get_user_components (env : RetrievalEnv) (user_id : String) : List String :=
  ((env.user_profiles.find? fun r => r.1 == user_id).map (·.2)).getD []

/-- Python `not query_text.strip()`: true iff the text is all whitespace. -/
def isBlank (s : String) : Bool := s.toList.all Char.isWhitespace

/-- The stage-1 candidate list of `hybrid_search`: `sql_filter` with the
resolved user components and candidate cap `min(100, limit * 5)`. -/
def stage1Candidates (env : RetrievalEnv) (user_id : String)
    (user_components : Option (List String)) (time_filter_days : Int)
    (limit : Nat) : List DecisionRow :=
  sql_filter env.db env.now
    (match user_components with
     | some cs => cs
     | none => get_user_components env user_id)
    time_filter_days none none (min 100 (limit * 5))

/-- `HybridRetrieval.hybrid_search`: stage-1 SQL filter; when the query text
is blank, return the first `limit` candidates unchanged with
`semantic_search_time_ms = 0` and `query_type = 'sql_only'`; otherwise
semantic re-rank with `query_type = 'hybrid'`. -/
def hybrid_search (env : RetrievalEnv) (user_id : String) (query_text : String)
    (user_components : Option (List String)) (time_filter_days : Int)
    (limit : Nat) : List RetrievalResult × RetrievalStats :=
  let candidates :=
    stage1Candidates env user_id user_components time_filter_days limit
  if isBlank query_text then
    -- Pure SQL filtering (component-based)
    let results := (candidates.take limit).map fun c =>
      rowToResult c (c.similarity_score.getD 0) none
    (results,
     ⟨env.total_elapsed_ms, env.sql_elapsed_ms, 0, candidates.length,
      results.length, "sql_only"⟩)
  else
    -- Stage 2: semantic search on candidates
    let results := semantic_search (env.encode query_text) candidates limit
    (results,
     ⟨env.total_elapsed_ms, env.sql_elapsed_ms, env.semantic_elapsed_ms,
      candidates.length, results.length, "hybrid"⟩)

/-! ### Claim theorem: retrieval correctness -/

/-- C6: every `hybrid_search` result originates from a stage-1 candidate, and
a blank query returns exactly the first `limit` stage-1 candidates (already
in recency order) with `semantic_search_time_ms = 0` and
`query_type = 'sql_only'`. -/
theorem hybrid_search_stage1_superset (env : RetrievalEnv)
    (user_id query_text : String) (user_components : Option (List String))
    (days : Int) (limit : Nat) :
    (∀ r ∈ (hybrid_search env user_id query_text user_components days limit).1,
      ∃ c ∈ stage1Candidates env user_id user_components days limit,
        r.decision_id = c.decision_id ∧ r.decision_text = c.decision_text ∧
        r.timestamp = c.timestamp ∧
        r.affected_components = c.affected_components) ∧
    (isBlank query_text = true →
      (hybrid_search env user_id query_text user_components days limit).1 =
        ((stage1Candidates env user_id user_components days limit).take
          limit).map (fun c => rowToResult c (c.similarity_score.getD 0) none) ∧
      (hybrid_search env user_id query_text user_components days
        limit).2.semantic_search_time_ms = 0 ∧
      (hybrid_search env user_id query_text user_components days
        limit).2.query_type = "sql_only") := by
  unfold hybrid_search
  by_cases hq : isBlank query_text
  · rw [if_pos hq]
    refine ⟨?_, fun _ => ⟨rfl, rfl, rfl⟩⟩
    intro r hr
    simp only [List.mem_map] at hr
    obtain ⟨c, hc, hrc⟩ := hr
    exact ⟨c, List.Sublist.mem hc (List.take_sublist _ _),
      by rw [← hrc]; exact ⟨rfl, rfl, rfl, rfl⟩⟩
  · rw [if_neg hq]
    refine ⟨?_, fun hqq => absurd hqq hq⟩
    intro r hr
    unfold semantic_search at hr
    by_cases hempty :
        (stage1Candidates env user_id user_components days limit).isEmpty
    · rw [if_pos hempty] at hr
      cases hr
    · rw [if_neg hempty] at hr
      have hr2 := List.Sublist.mem hr (List.take_sublist _ _)
      rw [mem_pySort] at hr2
      simp only [List.mem_map] at hr2
      obtain ⟨c, hc, hrc⟩ := hr2
      exact ⟨c, hc, by rw [← hrc]; exact ⟨rfl, rfl, rfl, rfl⟩⟩

/-- A one-row decisions table for concrete retrieval checks. -/
def sampleRow : DecisionRow :=
  ⟨1, "Updated REQ-245 motor torque", "Alice", "Hardware Lead", ["motor"],
   ["REQ-245"], 100, none, some [1], some 1, "embedded", "alice",
   "requirement_change"⟩

/-- A concrete retrieval environment. -/
def sampleEnv : RetrievalEnv :=
  ⟨[sampleRow], [("alice", ["motor"])], 1000, fun _ => [1], 1, 1, 2⟩

/-- Witness for C6: a blank-query search against the one-row table. -/
theorem hybrid_search_stage1_superset_witness :
    isBlank "" = true ∧
    ((hybrid_search sampleEnv "alice" "" none 30 20).1 =
      ((stage1Candidates sampleEnv "alice" none 30 20).take 20).map
        (fun c => rowToResult c (c.similarity_score.getD 0) none) ∧
     (hybrid_search sampleEnv "alice" "" none 30 20).2.semantic_search_time_ms = 0 ∧
     (hybrid_search sampleEnv "alice" "" none 30 20).2.query_type = "sql_only") :=
  ⟨by decide,
   (hybrid_search_stage1_superset sampleEnv "alice" "" none 30 20).2 (by decide)⟩

/-! ## Gap detection (src/backend/pipelines/gap_detector.py)

The detector is a pure function of the decision window, the `user_profiles`
table and the `slack_messages` table; the display-only
`description`/`recommendation` strings are not modelled. -/

/-- A `user_profiles` row. -/
structure UserProfile where
  user_id : String
  user_name : String
  role : String
  owned_components : List String
  deriving DecidableEq, Repr

/-- A decision joined with its author's profile, as returned by
`GapDetector._get_recent_decisions`. -/
structure GapDecision where
  decision_id : Nat
  thread_id : String
  timestamp : Int
  author_user_id : String
  decision_type : String
  decision_text : String
  affected_components : List String
  referenced_reqs : List String
  user_name : String
  role : String
  deriving DecidableEq, Repr

/-- A `slack_messages` row (the columns the detector reads). -/
structure SlackMessage where
  thread_id : String
  user_id : String
  deriving DecidableEq, Repr

/-- `SELECT DISTINCT user_id FROM slack_messages WHERE thread_id = %s`. -/
def participantsOf (msgs : List SlackMessage) (thread : String) : List String :=
  ((msgs.filter fun m => m.thread_id == thread).map (·.user_id)).dedup

/-- Python `s[:100] + "..."` (first 100 code points). -/
def truncate100 (s : String) : String := String.mk (s.toList.take 100) ++ "..."

/-- Python `s.lower()` (ASCII fragment). -/
def pyLower (s : String) : String := String.mk (s.toList.map Char.toLower)

/-- Python `s.endswith(t)`. -/
def endsWithStr (s t : String) : Bool := decide (t.toList <:+ s.toList)

/-- One entry of a gap's `missing_stakeholders` list. -/
structure MissingEntry where
  user_id : String
  user_name : String
  owned_component : String
  role : String
  deriving DecidableEq, Repr

/-- `users[uid]['role']` against the profile table (the detector only looks
up users that appear in the table, so the `""` default is never hit). -/
def roleOf (users : List UserProfile) (uid : String) : String :=
  ((users.find? fun u => u.user_id == uid).map (·.role)).getD ""

/-- The `component_owners` accumulation: one `(user_id, user_name, component)`
triple per affected component and owning profile row, in loop order. -/
def componentOwners (users : List UserProfile) (d : GapDecision) :
    List (String × String × String) :=
  d.affected_components.flatMap fun component =>
    (users.filter fun u => decide (component ∈ u.owned_components)).map fun u =>
      (u.user_id, u.user_name, component)

/-- The `missing` list: component owners that neither participated in the
thread nor authored the decision. -/
def missingFor (users : List UserProfile) (msgs : List SlackMessage)
    (d : GapDecision) : List MissingEntry :=
  (componentOwners users d).filterMap fun t =>
    if t.1 ∉ participantsOf msgs d.thread_id ∧ t.1 ≠ d.author_user_id then
      some ⟨t.1, t.2.1, t.2.2, roleOf users t.1⟩
    else none

/-- `"critical" if len(missing) > 2 or any(users[m['user_id']]['role']
.endswith('Lead') for m in missing) else "warning"`. -/
def stakeholderSeverity (users : List UserProfile)
    (missing : List MissingEntry) : String :=
  if 2 < missing.length ∨
      missing.any fun m => endsWithStr (roleOf users m.user_id) "Lead" then
    "critical"
  else "warning"

/-- A missing-stakeholder gap record. -/
structure StakeholderGap where
  decision_id : Nat
  decision_text : String
  thread_id : String
  timestamp : Int
  author : String
  affected_components : List String
  missing_stakeholders : List MissingEntry
  severity : String
  participants_count : Nat
  deriving DecidableEq, Repr

/-- The per-decision body of `GapDetector._detect_missing_stakeholders`:
emit a gap exactly when the missing list is non-empty. -/
def stakeholderGapFor (users : List UserProfile) (msgs : List SlackMessage)
    (d : GapDecision) : Option StakeholderGap :=
  let missing := missingFor users msgs d
  if missing.isEmpty then none
  else some
    { decision_id := d.decision_id
      decision_text := truncate100 d.decision_text
      thread_id := d.thread_id
      timestamp := d.timestamp
      author := d.user_name
      affected_components := d.affected_components
      missing_stakeholders := missing
      severity := stakeholderSeverity users missing
      participants_count := (participantsOf msgs d.thread_id).length }

/-- The final `sort(key=lambda x: (x['severity'] == 'warning',
x['timestamp']), reverse=True)`: stable descending lexicographic order. -/
def gapSortLe (a b : StakeholderGap) : Bool :=
  let ka : Nat × Int := (if a.severity == "warning" then 1 else 0, a.timestamp)
  let kb : Nat × Int := (if b.severity == "warning" then 1 else 0, b.timestamp)
  decide (kb.1 < ka.1 ∨ (kb.1 = ka.1 ∧ kb.2 ≤ ka.2))

/-- `GapDetector._detect_missing_stakeholders` over the decision window. -/
def detect_missing_stakeholders (users : List UserProfile)
    (msgs : List SlackMessage) (decisions : List GapDecision) :
    List StakeholderGap :=
  pySort gapSortLe (decisions.filterMap (stakeholderGapFor users msgs))

/-! ### Conflicts -/

/-- `_format_decision_summary`. -/
structure DecisionSummary where
  decision_id : Nat
  author : String
  timestamp : Int
  text : String
  dtype : String
  deriving DecidableEq, Repr

/-- Build the display summary of a decision. -/
def formatDecisionSummary (d : GapDecision) : DecisionSummary :=
  ⟨d.decision_id, d.user_name, d.timestamp, truncate100 d.decision_text,
   d.decision_type⟩

/-- A conflict record (display-only strings are not modelled). -/
structure Conflict where
  ctype : String
  component : Option String
  requirement : Option String
  decisions : List DecisionSummary
  severity : String
  timestamp : Int
  resolution_needed : Bool
  deriving DecidableEq, Repr

/-- The `contradiction_patterns` antonym table. -/
def contradiction_patterns : List (String × String) :=
  [("increase", "decrease"), ("add", "remove"), ("enable", "disable"),
   ("approve", "reject"), ("accept", "decline")]

/-- Severity from `time_diff.days < 1` with `time_diff = current - previous`
in seconds: `timedelta.days` floors, so this is `⌊diff / 86400⌋ < 1`. -/
def reqConflictSeverity (previous current : GapDecision) : String :=
  if (current.timestamp - previous.timestamp).toNat / 86400 < 1 then "critical"
  else "warning"

/-- The inner pattern loop of `_analyze_requirement_conflicts` for one
consecutive `(previous, current)` pair (the `current_text`/`previous_text`
locals are inlined). -/
def reqPairConflicts (requirement : String) (previous current : GapDecision) :
    List Conflict :=
  contradiction_patterns.filterMap fun pat =>
    if (strContains (pyLower current.decision_text) pat.1 &&
        strContains (pyLower previous.decision_text) pat.2) ||
       (strContains (pyLower current.decision_text) pat.2 &&
        strContains (pyLower previous.decision_text) pat.1) then
      some ⟨"requirement_conflict", none, some requirement,
        [formatDecisionSummary previous, formatDecisionSummary current],
        reqConflictSeverity previous current, current.timestamp, true⟩
    else none

/-- `GapDetector._analyze_requirement_conflicts`: sort the group by
timestamp, then flag every antonym pattern found across a consecutive
pair. -/
def analyze_requirement_conflicts (requirement : String)
    (decisions : List GapDecision) : List Conflict :=
  if decisions.length ≤ 1 then []
  else
    let sorted_decisions :=
      pySort (fun a b => decide (a.timestamp ≤ b.timestamp)) decisions
    (sorted_decisions.zip sorted_decisions.tail).flatMap fun pq =>
      reqPairConflicts requirement pq.1 pq.2

/-! #### Before/after value changes

`_detect_before_after_conflicts` extracts `X to Y` / `X → Y` patterns with
`re.findall(r'(\w+(?:\.\w+)*)\s*(?:to|→)\s*(\w+(?:\.\w+)*)', text,
re.IGNORECASE)`.  The scanner below implements that pattern: matches are
found left to right and non-overlapping, group 1 backtracks from the longest
grammar prefix (exact for the dot-free tokens the detector sees), the
separator `to` is case-insensitive, and group 2 is parsed greedily. -/

/-- Python `\w` (ASCII fragment). -/
def isWordChar (c : Char) : Bool := c.isAlphanum || c == '_'

/-- Length of the maximal `\w+` run at the head. -/
def wordRunLength : List Char → Nat
  | [] => 0
  | c :: cs => if isWordChar c then wordRunLength cs + 1 else 0

/-- Greedy extension of a word run by `(?:\.\w+)*` segments. -/
def dottedExtend : Nat → List Char → Nat
  | 0, _ => 0
  | fuel + 1, cs =>
    match cs with
    | '.' :: rest =>
      let n := wordRunLength rest
      if n = 0 then 0 else 1 + n + dottedExtend fuel (rest.drop n)
    | _ => 0

/-- Length of the maximal `\w+(?:\.\w+)*` parse at the head (0 = no match). -/
def dottedRunLength (cs : List Char) : Nat :=
  let n := wordRunLength cs
  if n = 0 then 0 else n + dottedExtend cs.length (cs.drop n)

/-- Group-1 candidate lengths in backtracking order (longest first), i.e.
the prefixes of the maximal parse that end on a word character. -/
def group1Candidates (cs : List Char) : List Nat :=
  (((List.range (dottedRunLength cs)).map (· + 1)).reverse).filter fun l =>
    match cs.get? (l - 1) with
    | some c => isWordChar c
    | none => false

/-- Attempt the change pattern at the head; on success return
`(before, after, rest-of-text)`. -/
def matchChangeAt (cs : List Char) : Option (String × String × List Char) :=
  (group1Candidates cs).findSome? fun l =>
    let g1 := cs.take l
    let rest1 := (cs.drop l).dropWhile fun c => c.isWhitespace
    let sep : Option (List Char) :=
      match rest1 with
      | c1 :: c2 :: rest =>
        if c1.toLower = 't' ∧ c2.toLower = 'o' then some rest
        else if c1 = '→' then some (c2 :: rest) else none
      | c1 :: rest => if c1 = '→' then some rest else none
      | [] => none
    match sep with
    | none => none
    | some rest2 =>
      let rest3 := rest2.dropWhile fun c => c.isWhitespace
      let g2len := dottedRunLength rest3
      if g2len = 0 then none
      else some (String.mk g1, String.mk (rest3.take g2len), rest3.drop g2len)

/-- Left-to-right, non-overlapping scan (fuel = remaining text length). -/
def findChanges : Nat → List Char → List (String × String)
  | 0, _ => []
  | fuel + 1, cs =>
    match cs with
    | [] => []
    | _ :: rest =>
      match matchChangeAt cs with
      | some (g1, g2, remaining) => (g1, g2) :: findChanges fuel remaining
      | none => findChanges fuel rest

/-- `re.findall` of the change pattern over a decision text. -/
def extractChanges (text : String) : List (String × String) :=
  findChanges text.toList.length text.toList

/-- One extracted before/after change (`before`/`after` lowercased as in the
source). -/
structure ValueChange where
  decision : GapDecision
  before : String
  after : String
  timestamp : Int
  deriving DecidableEq, Repr

/-- The `changes` accumulation of `_detect_before_after_conflicts`. -/
def changesOf (decisions : List GapDecision) : List ValueChange :=
  decisions.flatMap fun d =>
    (extractChanges d.decision_text).map fun ba =>
      ⟨d, pyLower ba.1, pyLower ba.2, d.timestamp⟩

/-- Python's `for i, x in enumerate(l): for y in l[i+1:]` pair order. -/
def orderedPairs {α : Type} : List α → List (α × α)
  | [] => []
  | x :: xs => (xs.map fun y => (x, y)) ++ orderedPairs xs

/-- `GapDetector._detect_before_after_conflicts`: flag circular changes
(`A→B` in one change, `B→A` in a later one) — always `critical`. -/
def detect_before_after_conflicts (decisions : List GapDecision) :
    List Conflict :=
  if 1 < (changesOf decisions).length then
    (orderedPairs (changesOf decisions)).filterMap fun cc =>
      if cc.1.before = cc.2.after ∧ cc.1.after = cc.2.before then
        some ⟨"circular_change", none, none,
          [formatDecisionSummary cc.1.decision,
           formatDecisionSummary cc.2.decision],
          "critical", max cc.1.timestamp cc.2.timestamp, true⟩
      else none
  else []

/-- Python `max(timestamps)` on the (non-empty) group. -/
def maxTimestamp : List GapDecision → Int
  | [] => 0
  | d :: ds => ds.foldl (fun m x => max m x.timestamp) d.timestamp

/-- `GapDetector._analyze_component_conflicts`: approval-vs-rejection
co-occurrence, the before/after circular changes (tagged with the
component), and duplicate recent decisions. -/
def analyze_component_conflicts (component : String)
    (decisions : List GapDecision) : List Conflict :=
  let has_approval := decisions.any fun d => strContains d.decision_type "approval"
  let has_rejection :=
    decisions.any fun d => strContains (pyLower d.decision_text) "reject"
  let approvalConflicts : List Conflict :=
    if has_approval && has_rejection then
      [⟨"component_conflict", some component, none,
        decisions.map formatDecisionSummary, "critical",
        maxTimestamp decisions, true⟩]
    else []
  let beforeAfter := (detect_before_after_conflicts decisions).map fun c =>
    { c with component := some component }
  let duplicates : List Conflict :=
    if (decisions.map (·.decision_text)).dedup.length < decisions.length then
      let recent_window := maxTimestamp decisions - 86400
      let recent_decisions :=
        decisions.filter fun d => decide (recent_window < d.timestamp)
      if 1 < recent_decisions.length then
        [⟨"duplicate_decision", some component, none,
          recent_decisions.map formatDecisionSummary, "warning",
          maxTimestamp decisions, false⟩]
      else []
    else []
  approvalConflicts ++ beforeAfter ++ duplicates

/-- Insertion-ordered keys of the Python grouping dicts (a dict preserves
first-insertion order). -/
def groupKeys (f : GapDecision → List String) (decisions : List GapDecision) :
    List String :=
  decisions.foldl
    (fun ks d => (f d).foldl (fun ks k => if k ∈ ks then ks else ks ++ [k]) ks)
    []

/-- The group of a key: every decision appended once per occurrence of the
key in its list (as the Python double loop does). -/
def groupFor (f : GapDecision → List String) (decisions : List GapDecision)
    (k : String) : List GapDecision :=
  decisions.flatMap fun d =>
    (f d).filterMap fun c => if c = k then some d else none

/-- The final conflict sort key order (same shape as the gap sort). -/
def conflictSortLe (a b : Conflict) : Bool :=
  let ka : Nat × Int := (if a.severity == "warning" then 1 else 0, a.timestamp)
  let kb : Nat × Int := (if b.severity == "warning" then 1 else 0, b.timestamp)
  decide (kb.1 < ka.1 ∨ (kb.1 = ka.1 ∧ kb.2 ≤ ka.2))

/-- `GapDetector._detect_conflicts`: group by component and by requirement,
analyze groups with more than one decision, sort. -/
def detect_conflicts (decisions : List GapDecision) : List Conflict :=
  let compConflicts :=
    (groupKeys (·.affected_components) decisions).flatMap fun component =>
      let comp_decisions := groupFor (·.affected_components) decisions component
      if 1 < comp_decisions.length then
        analyze_component_conflicts component comp_decisions
      else []
  let reqConflicts :=
    (groupKeys (·.referenced_reqs) decisions).flatMap fun req =>
      let req_decisions := groupFor (·.referenced_reqs) decisions req
      if 1 < req_decisions.length then
        analyze_requirement_conflicts req req_decisions
      else []
  pySort conflictSortLe (compConflicts ++ reqConflicts)

/-! ### Gap-detector lemmas -/

/-- A user appears in a decision's missing list iff they own an affected
component, did not participate in the thread, and are not the author. -/
theorem mem_missingFor_iff (users : List UserProfile) (msgs : List SlackMessage)
    (d : GapDecision) (uid : String) :
    (∃ m ∈ missingFor users msgs d, m.user_id = uid) ↔
      ((∃ u ∈ users, u.user_id = uid ∧
          ∃ comp ∈ d.affected_components, comp ∈ u.owned_components) ∧
       uid ∉ participantsOf msgs d.thread_id ∧ uid ≠ d.author_user_id) := by
  unfold missingFor componentOwners
  constructor
  · rintro ⟨m, hm, huid⟩
    rw [List.mem_filterMap] at hm
    obtain ⟨t, ht, hsome⟩ := hm
    split at hsome
    · rename_i hcond
      have hmval := Option.some.inj hsome
      have ht1 : t.1 = uid := by rw [← huid, ← hmval]
      rw [List.mem_flatMap] at ht
      obtain ⟨comp, hcomp, htc⟩ := ht
      rw [List.mem_map] at htc
      obtain ⟨u, hu, htu⟩ := htc
      rw [List.mem_filter, decide_eq_true_eq] at hu
      have huu : u.user_id = uid := by rw [← ht1, ← htu]
      exact ⟨⟨u, hu.1, huu, comp, hcomp, hu.2⟩, ht1 ▸ hcond.1, ht1 ▸ hcond.2⟩
    · cases hsome
  · rintro ⟨⟨u, hu, huid, comp, hcomp, howns⟩, hpart, hauth⟩
    subst huid
    refine ⟨⟨u.user_id, u.user_name, comp, roleOf users u.user_id⟩, ?_, rfl⟩
    rw [List.mem_filterMap]
    refine ⟨(u.user_id, u.user_name, comp), ?_, ?_⟩
    · rw [List.mem_flatMap]
      exact ⟨comp, hcomp, List.mem_map.mpr ⟨u, List.mem_filter.mpr
        ⟨hu, by rw [decide_eq_true_eq]; exact howns⟩, rfl⟩⟩
    · rw [if_pos ⟨hpart, hauth⟩]

/-- The severity rule of `_detect_missing_stakeholders` as a proposition. -/
theorem stakeholderSeverity_critical_iff (users : List UserProfile)
    (missing : List MissingEntry) :
    (stakeholderSeverity users missing = "critical" ↔
      (2 < missing.length ∨
       ∃ m ∈ missing, endsWithStr (roleOf users m.user_id) "Lead" = true)) := by
  unfold stakeholderSeverity
  split_ifs with h
  · refine ⟨fun _ => ?_, fun _ => rfl⟩
    rcases h with h | h
    · exact Or.inl h
    · exact Or.inr (List.any_eq_true.mp h)
  · refine ⟨fun hh => absurd hh (by decide), fun hh => ?_⟩
    rcases hh with h1 | h2
    · exact absurd (Or.inl h1) h
    · exact absurd (Or.inr (List.any_eq_true.mpr h2)) h

/-! ### Claim theorems: missing stakeholders -/

/-- Users and decision refuting C7's severity rule: `bob` owns all three
affected components. -/
def cexUsers : List UserProfile :=
  [⟨"alice", "Alice", "Engineer", []⟩,
   ⟨"bob", "Bob", "Engineer", ["motor", "pcb", "thermal"]⟩]

/-- The decision for the C7 counterexample (author `alice`, empty thread). -/
def cexDecision : GapDecision :=
  ⟨7, "thread-7", 0, "alice", "design_decision",
   "motor pcb thermal redesign", ["motor", "pcb", "thermal"], [],
   "Alice", "Engineer"⟩

/-- C7 counterexample: exactly one non-lead stakeholder (`bob`) is missing,
yet the emitted gap is `critical`, because `len(missing) > 2` counts
(owner, component) pairs — `bob` owns three affected components — not
distinct stakeholders. -/
theorem stakeholder_severity_counterexample :
    (detect_missing_stakeholders cexUsers [] [cexDecision]).map
      (fun g => (g.severity,
        ((g.missing_stakeholders.map (·.user_id)).dedup).length,
        g.missing_stakeholders.any fun m => endsWithStr m.role "Lead")) =
      [("critical", 1, false)] := by decide

/-- What the amended C7 asserts of a gap `g` for a decision `d`: the gap
carries the decision's id; its missing list is non-empty; its missing *user
set* is exactly the owners of affected components minus the thread
participants minus the author; and severity is `critical` exactly when the
per-(owner, component) missing list has more than 2 entries or some missing
stakeholder's role ends in `Lead`. -/
def stakeholderGapSpec (users : List UserProfile) (msgs : List SlackMessage)
    (d : GapDecision) (g : StakeholderGap) : Prop :=
  g.decision_id = d.decision_id ∧
  g.missing_stakeholders ≠ [] ∧
  (∀ uid : String,
    (∃ m ∈ g.missing_stakeholders, m.user_id = uid) ↔
    ((∃ u ∈ users, u.user_id = uid ∧
        ∃ comp ∈ d.affected_components, comp ∈ u.owned_components) ∧
     uid ∉ participantsOf msgs d.thread_id ∧ uid ≠ d.author_user_id)) ∧
  (g.severity = "critical" ↔
    (2 < g.missing_stakeholders.length ∨
     ∃ m ∈ g.missing_stakeholders,
       endsWithStr (roleOf users m.user_id) "Lead" = true))

/-- Unfolding equation of `stakeholderGapFor` (let-free form). -/
theorem stakeholderGapFor_eq (users : List UserProfile)
    (msgs : List SlackMessage) (d : GapDecision) :
    stakeholderGapFor users msgs d =
      if (missingFor users msgs d).isEmpty then none
      else some
        { decision_id := d.decision_id
          decision_text := truncate100 d.decision_text
          thread_id := d.thread_id
          timestamp := d.timestamp
          author := d.user_name
          affected_components := d.affected_components
          missing_stakeholders := missingFor users msgs d
          severity := stakeholderSeverity users (missingFor users msgs d)
          participants_count :=
            (participantsOf msgs d.thread_id).length } := rfl

/-- Any gap `stakeholderGapFor` emits for a decision satisfies the amended
specification for that decision. -/
theorem stakeholderGapFor_spec (users : List UserProfile)
    (msgs : List SlackMessage) (d : GapDecision) (g : StakeholderGap)
    (hsome : stakeholderGapFor users msgs d = some g) :
    stakeholderGapSpec users msgs d g := by
  rw [stakeholderGapFor_eq] at hsome
  by_cases he : (missingFor users msgs d).isEmpty = true
  · rw [if_pos he] at hsome
    cases hsome
  · rw [if_neg he] at hsome
    have hgval := Option.some.inj hsome
    subst hgval
    unfold stakeholderGapSpec
    refine ⟨rfl, ?_, ?_, ?_⟩
    · intro h0
      apply he
      show (missingFor users msgs d).isEmpty = true
      rw [show missingFor users msgs d = [] from h0]
      rfl
    · intro uid
      exact mem_missingFor_iff users msgs d uid
    · exact stakeholderSeverity_critical_iff users (missingFor users msgs d)

/-- C7 (amended), both directions.  Soundness: every gap emitted by
`_detect_missing_stakeholders` satisfies the amended specification for some
window decision.  Production: every window decision whose missing set — the
owners of affected components minus the thread participants minus the author
— is non-empty yields an emitted gap satisfying the specification.  (The
original claim counted distinct missing stakeholders in the severity rule;
the code counts (owner, component) ownership pairs — see the
counterexample.) -/
theorem stakeholder_gap_amended (users : List UserProfile)
    (msgs : List SlackMessage) (decisions : List GapDecision) :
    (∀ g ∈ detect_missing_stakeholders users msgs decisions,
      ∃ d ∈ decisions, stakeholderGapSpec users msgs d g) ∧
    (∀ d ∈ decisions,
      (∃ uid : String,
        (∃ u ∈ users, u.user_id = uid ∧
          ∃ comp ∈ d.affected_components, comp ∈ u.owned_components) ∧
        uid ∉ participantsOf msgs d.thread_id ∧ uid ≠ d.author_user_id) →
      ∃ g ∈ detect_missing_stakeholders users msgs decisions,
        stakeholderGapSpec users msgs d g) := by
  constructor
  · intro g hg
    unfold detect_missing_stakeholders at hg
    rw [mem_pySort, List.mem_filterMap] at hg
    obtain ⟨d, hd, hsome⟩ := hg
    exact ⟨d, hd, stakeholderGapFor_spec users msgs d g hsome⟩
  · intro d hd hne
    obtain ⟨uid, hcond⟩ := hne
    obtain ⟨m, hm, _⟩ := (mem_missingFor_iff users msgs d uid).mpr hcond
    have hne2 : (missingFor users msgs d).isEmpty = false := by
      cases hq : missingFor users msgs d with
      | nil =>
        rw [hq] at hm
        cases hm
      | cons a l => rfl
    obtain ⟨g, hsome⟩ : ∃ g, stakeholderGapFor users msgs d = some g := by
      rw [stakeholderGapFor_eq, hne2, if_neg Bool.false_ne_true]
      exact ⟨_, rfl⟩
    refine ⟨g, ?_, stakeholderGapFor_spec users msgs d g hsome⟩
    unfold detect_missing_stakeholders
    rw [mem_pySort, List.mem_filterMap]
    exact ⟨d, hd, hsome⟩

/-- Witness for C7's amended theorem: in the concrete scenario the
production hypothesis holds for `bob`, and the theorem delivers an emitted
gap meeting the specification. -/
theorem stakeholder_gap_amended_witness :
    (cexDecision ∈ [cexDecision] ∧
     (∃ uid : String,
       (∃ u ∈ cexUsers, u.user_id = uid ∧
         ∃ comp ∈ cexDecision.affected_components, comp ∈ u.owned_components) ∧
       uid ∉ participantsOf [] cexDecision.thread_id ∧
       uid ≠ cexDecision.author_user_id)) ∧
    (∃ g ∈ detect_missing_stakeholders cexUsers [] [cexDecision],
      stakeholderGapSpec cexUsers [] cexDecision g) :=
  ⟨⟨by decide,
    ⟨"bob", ⟨⟨"bob", "Bob", "Engineer", ["motor", "pcb", "thermal"]⟩,
      by decide, rfl, "motor", by decide, by decide⟩,
      by decide, by decide⟩⟩,
   (stakeholder_gap_amended cexUsers [] [cexDecision]).2 cexDecision
     (by decide)
     ⟨"bob", ⟨⟨"bob", "Bob", "Engineer", ["motor", "pcb", "thermal"]⟩,
       by decide, rfl, "motor", by decide, by decide⟩,
       by decide, by decide⟩⟩

/-! ### Claim theorems: conflicts -/

/-- On a `Pairwise` list, any pair taken from `zip l l.tail` (consecutive
elements) is related. -/
theorem pairwise_zip_tail {α : Type} {R : α → α → Prop} :
    ∀ {l : List α}, l.Pairwise R → ∀ p ∈ l.zip l.tail, R p.1 p.2 := by
  intro l
  induction l with
  | nil =>
    intro _ p hp
    cases hp
  | cons x xs ih =>
    intro h p hp
    cases xs with
    | nil =>
      simp at hp
    | cons y ys =>
      rw [List.pairwise_cons] at h
      rw [show (x :: y :: ys).tail = y :: ys from rfl, List.zip_cons_cons] at hp
      rcases List.mem_cons.mp hp with hp | hp
      · subst hp
        exact h.1 y (by simp)
      · exact ih h.2 p hp


/-- The antonym-conflict severity rule as a proposition (for a sorted
pair). -/
theorem reqConflictSeverity_iff (p q : GapDecision)
    (h : p.timestamp ≤ q.timestamp) :
    (reqConflictSeverity p q = "critical" ↔
      q.timestamp - p.timestamp < 86400) := by
  unfold reqConflictSeverity
  split_ifs with hd
  · refine ⟨fun _ => ?_, fun _ => rfl⟩
    rw [Nat.div_lt_iff_lt_mul (by norm_num)] at hd
    omega
  · refine ⟨fun hh => absurd hh (by decide), fun hh => absurd ?_ hd⟩
    rw [Nat.div_lt_iff_lt_mul (by norm_num)]
    omega

/-- Any conflict emitted for one consecutive pair is the antonym conflict
record of that pair. -/
theorem mem_reqPairConflicts (req : String) (p q : GapDecision) (c : Conflict)
    (hc : c ∈ reqPairConflicts req p q) :
    c = ⟨"requirement_conflict", none, some req,
      [formatDecisionSummary p, formatDecisionSummary q],
      reqConflictSeverity p q, q.timestamp, true⟩ := by
  unfold reqPairConflicts at hc
  rw [List.mem_filterMap] at hc
  obtain ⟨pat, _, hsome⟩ := hc
  split at hsome
  · exact (Option.some.inj hsome).symm
  · cases hsome

/-- Specification of `_analyze_requirement_conflicts`: every emitted conflict
is a `requirement_conflict` for a time-sorted pair, `critical` exactly when
the two are less than 24 h apart. -/
theorem analyze_requirement_conflicts_spec (req : String)
    (ds : List GapDecision) (c : Conflict)
    (hc : c ∈ analyze_requirement_conflicts req ds) :
    c.ctype = "requirement_conflict" ∧
    ∃ p q : DecisionSummary, c.decisions = [p, q] ∧
      p.timestamp ≤ q.timestamp ∧
      (c.severity = "critical" ↔ q.timestamp - p.timestamp < 86400) := by
  unfold analyze_requirement_conflicts at hc
  split at hc
  · cases hc
  · simp only [List.mem_flatMap] at hc
    obtain ⟨pq, hpq, hcc⟩ := hc
    have hsorted : (pySort (fun a b => decide (a.timestamp ≤ b.timestamp))
        ds).Pairwise
        fun a b => (decide (a.timestamp ≤ b.timestamp)) = true := by
      refine pairwise_pySort ?_ ?_ ds
      · intro a b c hab hbc
        rw [decide_eq_true_eq] at hab hbc ⊢
        omega
      · intro a b
        rcases le_total a.timestamp b.timestamp with h | h
        · exact Or.inl (by simpa using h)
        · exact Or.inr (by simpa using h)
    have hle : pq.1.timestamp ≤ pq.2.timestamp := by
      have := pairwise_zip_tail hsorted pq hpq
      rwa [decide_eq_true_eq] at this
    have hcval := mem_reqPairConflicts req pq.1 pq.2 c hcc
    subst hcval
    exact ⟨rfl, formatDecisionSummary pq.1, formatDecisionSummary pq.2, rfl,
      hle, reqConflictSeverity_iff pq.1 pq.2 hle⟩

/-- Specification of `_detect_before_after_conflicts`: every emitted
conflict is a `critical` `circular_change`. -/
theorem before_after_conflicts_spec (ds : List GapDecision) (c : Conflict)
    (hc : c ∈ detect_before_after_conflicts ds) :
    c.ctype = "circular_change" ∧ c.severity = "critical" := by
  unfold detect_before_after_conflicts at hc
  split at hc
  · rw [List.mem_filterMap] at hc
    obtain ⟨cc, _, hsome⟩ := hc
    split at hsome
    · have := Option.some.inj hsome
      rw [← this]
      exact ⟨rfl, rfl⟩
    · cases hsome
  · cases hc

/-- Specification of `_analyze_component_conflicts`: component groups emit
only the three component-side conflict kinds, and their circular changes are
always `critical`. -/
theorem analyze_component_conflicts_spec (comp : String)
    (ds : List GapDecision) (c : Conflict)
    (hc : c ∈ analyze_component_conflicts comp ds) :
    (c.ctype = "component_conflict" ∨ c.ctype = "circular_change" ∨
      c.ctype = "duplicate_decision") ∧
    (c.ctype = "circular_change" → c.severity = "critical") := by
  unfold analyze_component_conflicts at hc
  simp only [List.mem_append] at hc
  rcases hc with (hc | hc) | hc
  · split at hc
    · rw [List.mem_singleton] at hc
      subst hc
      exact ⟨Or.inl rfl, fun h =>
        absurd (show ("component_conflict" : String) = "circular_change" from h)
          (by decide)⟩
    · cases hc
  · simp only [List.mem_map] at hc
    obtain ⟨c0, hc0, hup⟩ := hc
    obtain ⟨ht, hs⟩ := before_after_conflicts_spec ds c0 hc0
    rw [← hup]
    exact ⟨Or.inr (Or.inl ht), fun _ => hs⟩
  · split at hc
    · split at hc
      · rw [List.mem_singleton] at hc
        subst hc
        exact ⟨Or.inr (Or.inr rfl), fun h =>
          absurd (show ("duplicate_decision" : String) = "circular_change" from h)
            (by decide)⟩
      · cases hc
    · cases hc

/-- Two decisions sharing only requirement `REQ-100` with a circular value
change between them (5 → 10, then 10 → 5). -/
def reqOnlyD1 : GapDecision :=
  ⟨1, "t1", 0, "alice", "design_decision", "set timeout 5 to 10", [],
   ["REQ-100"], "Alice", "Engineer"⟩

/-- The later decision reverting the change of `reqOnlyD1`. -/
def reqOnlyD2 : GapDecision :=
  ⟨2, "t2", 1000, "bob", "design_decision", "set timeout 10 to 5", [],
   ["REQ-100"], "Bob", "Engineer"⟩

/-- C8 counterexample: the pair shares requirement `REQ-100` and exhibits a
circular value change, yet `detect_conflicts` emits nothing — the
before/after analysis only runs inside component groups. -/
theorem circular_requirement_counterexample :
    extractChanges reqOnlyD1.decision_text = [("5", "10")] ∧
    extractChanges reqOnlyD2.decision_text = [("10", "5")] ∧
    reqOnlyD1.referenced_reqs = ["REQ-100"] ∧
    reqOnlyD2.referenced_reqs = ["REQ-100"] ∧
    detect_conflicts [reqOnlyD1, reqOnlyD2] = [] := by decide

/-- C8 (amended): in `detect_conflicts` output, an antonym conflict of a
requirement group records a time-sorted decision pair and is `critical`
exactly when the two decisions are under 24 hours apart (else `warning`);
circular value changes are flagged only within component groups, and every
flagged `circular_change` is `critical`. -/
theorem conflict_severity_amended (decisions : List GapDecision)
    (c : Conflict) (hc : c ∈ detect_conflicts decisions) :
    (c.ctype = "requirement_conflict" →
      ∃ p q : DecisionSummary, c.decisions = [p, q] ∧
        p.timestamp ≤ q.timestamp ∧
        (c.severity = "critical" ↔ q.timestamp - p.timestamp < 86400)) ∧
    (c.ctype = "circular_change" → c.severity = "critical") := by
  unfold detect_conflicts at hc
  simp only [mem_pySort, List.mem_append, List.mem_flatMap] at hc
  rcases hc with ⟨comp, _, hcc⟩ | ⟨req, _, hcc⟩
  · split at hcc
    · obtain ⟨hkinds, hcirc⟩ := analyze_component_conflicts_spec comp _ c hcc
      refine ⟨fun h => ?_, hcirc⟩
      rcases hkinds with h1 | h1 | h1 <;>
        exact absurd (h.symm.trans h1) (by decide)
    · cases hcc
  · split at hcc
    · obtain ⟨ht, p, q, hdec, hle, hsev⟩ :=
        analyze_requirement_conflicts_spec req _ c hcc
      exact ⟨fun _ => ⟨p, q, hdec, hle, hsev⟩,
        fun h => absurd (ht.symm.trans h) (by decide)⟩
    · cases hcc

/-- Two antonym decisions sharing requirement `REQ-9`, 1000 s apart. -/
def antD1 : GapDecision :=
  ⟨3, "t3", 0, "alice", "design_decision", "increase the limit", [],
   ["REQ-9"], "Alice", "Engineer"⟩

/-- The later, contradicting decision. -/
def antD2 : GapDecision :=
  ⟨4, "t4", 1000, "bob", "design_decision", "decrease the limit", [],
   ["REQ-9"], "Bob", "Engineer"⟩

/-- The conflict `detect_conflicts` emits for `antD1`/`antD2`. -/
def antConflict : Conflict :=
  ⟨"requirement_conflict", none, some "REQ-9",
   [⟨3, "Alice", 0, "increase the limit...", "design_decision"⟩,
    ⟨4, "Bob", 1000, "decrease the limit...", "design_decision"⟩],
   "critical", 1000, true⟩

/-- Witness for C8's amended theorem at the concrete antonym scenario. -/
theorem conflict_severity_amended_witness :
    antConflict ∈ detect_conflicts [antD1, antD2] ∧
    ((antConflict.ctype = "requirement_conflict" →
      ∃ p q : DecisionSummary, antConflict.decisions = [p, q] ∧
        p.timestamp ≤ q.timestamp ∧
        (antConflict.severity = "critical" ↔
          q.timestamp - p.timestamp < 86400)) ∧
     (antConflict.ctype = "circular_change" →
      antConflict.severity = "critical")) :=
  ⟨by decide, conflict_severity_amended [antD1, antD2] antConflict (by decide)⟩

/-! ## Orchestrator ingest pipeline (src/backend/two_tier_orchestrator.py)

`process_incoming_message` is effectful; its external calls are modelled by
an explicit world record carrying the outcome of each call (exactly the
outcomes its `try/except` blocks react to), making the pipeline a total
function from the world to the returned result dict plus the updated
counters.  Database/Redis side effects beyond the returned values are not
modelled. -/

/-- The aggregate counters (`self.stats`). -/
structure OrchestratorStats where
  messages_processed : Nat
  context_injections : Nat
  gaps_created : Nat
  avg_processing_time_ms : ℚ
  redis_failures : Nat
  sql_failures : Nat
  deriving DecidableEq, Repr

/-- Outcomes of the external calls made while processing one message. -/
structure IngestWorld where
  /-- Redis reachable: `add_message` returns True and buffer reads work. -/
  redisUp : Bool
  /-- What `get_recent_context` yields in step 4 while Redis is up. -/
  channelBuffer : List LiveContextMessage
  /-- A PostgreSQL pool exists. -/
  dbPool : Bool
  /-- The decision INSERT succeeds. -/
  sqlInsertOk : Bool
  /-- The gap INSERT succeeds. -/
  gapInsertOk : Bool
  /-- The generated gap id. -/
  gapId : String
  /-- Outcome of `extract_entities_fast` (`.error` = an exception escaping
  it, caught by the outer `except`). -/
  extraction : Except String ExtractedEntities
  /-- Outcome of `context_responder.generate_response`. -/
  responder : Except String String
  /-- Wall-clock reading recorded as `processing_time_ms`. -/
  processingTimeMs : ℚ

/-- The dict returned by `process_incoming_message` (keys absent from the
error dict are `none`). -/
structure IngestResult where
  decision_created : Bool
  decision_id : Option String
  entities_extracted : Option Nat
  extraction_time_ms : Option ℚ
  processing_time_ms : ℚ
  context_injected : Bool
  gap_created : Bool
  confidence : Option String
  score : Option ℚ
  matching_contexts_count : Option Nat
  response : Option String
  error : Option String
  deriving DecidableEq, Repr

/-- The dict returned by `_check_context_injection`. -/
structure ContextResult where
  context_injected : Bool
  gap_created : Bool
  confidence : Option String
  score : Option ℚ
  matching_contexts_count : Option Nat
  response : Option String
  error : Option String
  deriving DecidableEq, Repr

/-- Rebuilding `ExtractedEntities` from a buffered payload
(`extraction_time_ms = 0` as in the source). -/
def entitiesOfPayload (p : EntityPayload) : ExtractedEntities :=
  ⟨p.reqs, p.components, p.users_mentioned, p.topics, p.confidence, 0⟩

/-- `TwoTierOrchestrator._create_gap_if_needed`: no pool → None; the user was
already mentioned in a matching context → None; otherwise insert the gap
(None when the INSERT raises). -/
def create_gap_if_needed (w : IngestWorld)
    (matching_contexts : List LiveContextMessage) (user_id : String) :
    Option String :=
  if !w.dbPool then none
  else if matching_contexts.any fun msg =>
      msg.entities.users_mentioned.contains ("@" ++ user_id) then none
  else if w.gapInsertOk then some w.gapId
  else none

/-- `TwoTierOrchestrator._check_context_injection` (threshold `'medium'`):
read the buffer (the read path catches its own errors and returns `[]` when
Redis is down), gate through `should_inject_context`, collect matching
contexts, maybe create a gap, then ask the responder; a responder fault is
caught by the surrounding `except` and reported in the `error` key. -/
def check_context_injection (w : IngestWorld) (b_entities : ExtractedEntities)
    (user_id : String) : ContextResult :=
  let context_messages := if w.redisUp then w.channelBuffer else []
  if context_messages.isEmpty then
    ⟨false, false, none, none, none, none, none⟩
  else
    let buffer_entities := context_messages.map fun m =>
      entitiesOfPayload m.entities
    let si := should_inject_context b_entities buffer_entities "medium"
    if !si.1 then ⟨false, false, none, none, none, none, none⟩
    else
      let matching_contexts := context_messages.filter fun msg =>
        let conf := (calculate_overlap_score b_entities
          [entitiesOfPayload msg.entities]).1
        conf == "high" || conf == "medium"
      let gap_id := if !matching_contexts.isEmpty then
          create_gap_if_needed w matching_contexts user_id
        else none
      match w.responder with
      | .error e => ⟨false, false, none, none, none, none, some e⟩
      | .ok response =>
        ⟨true, gap_id.isSome, some si.2.1, some si.2.2,
         some matching_contexts.length, some response, none⟩

/-- Decision-id generation
(`f"{timestamp.strftime('%Y%m%d_%H%M%S')}_{message_id[:8]}"`, with the
timestamp rendered as its integer value). -/
def mkDecisionId (timestamp : Int) (message_id : String) : String :=
  toString timestamp ++ "_" ++ String.mk (message_id.toList.take 8)

/-- `TwoTierOrchestrator._create_decision_record`: no pool → None without
counting; INSERT failure → None and `sql_failures + 1`; success → the
generated id. -/
def create_decision_record (w : IngestWorld) (message_id : String)
    (timestamp : Int) (stats : OrchestratorStats) :
    Option String × OrchestratorStats :=
  if !w.dbPool then (none, stats)
  else if w.sqlInsertOk then (some (mkDecisionId timestamp message_id), stats)
  else (none, { stats with sql_failures := stats.sql_failures + 1 })

/-- `TwoTierOrchestrator.process_incoming_message`: extraction, decision
creation, buffer add (failures counted in `redis_failures`), context
injection, stats update; an extraction fault reaches the outer `except` and
produces the error dict. -/
def process_incoming_message (w : IngestWorld)
    (message_id channel_id user_id message_text : String) (timestamp : Int)
    (stats0 : OrchestratorStats) : IngestResult × OrchestratorStats :=
  match w.extraction with
  | .error e =>
    (⟨false, none, none, none, w.processingTimeMs, false, false, none, none,
      none, none, some e⟩, stats0)
  | .ok entities =>
    let dec := if is_decision_worthy entities message_text then
        create_decision_record w message_id timestamp stats0
      else (none, stats0)
    let stats2 := if !w.redisUp then
        { dec.2 with redis_failures := dec.2.redis_failures + 1 }
      else dec.2
    let ctx := check_context_injection w entities user_id
    let stats3 := { stats2 with
      messages_processed := stats2.messages_processed + 1
      avg_processing_time_ms :=
        (stats2.avg_processing_time_ms * (stats2.messages_processed : ℚ) +
          w.processingTimeMs) / ((stats2.messages_processed : ℚ) + 1)
      context_injections := stats2.context_injections +
        (if ctx.context_injected then 1 else 0)
      gaps_created := stats2.gaps_created +
        (if ctx.gap_created then 1 else 0) }
    (⟨dec.1.isSome, dec.1, some (entities.reqs ++ entities.components).length,
      some entities.extraction_time_ms, w.processingTimeMs,
      ctx.context_injected, ctx.gap_created, ctx.confidence, ctx.score,
      ctx.matching_contexts_count, ctx.response, ctx.error⟩, stats3)

/-! ### Orchestrator lemmas -/

/-- Decision creation never touches the Redis failure counter. -/
theorem create_decision_record_redis (w : IngestWorld) (mid : String)
    (ts : Int) (st : OrchestratorStats) :
    (create_decision_record w mid ts st).2.redis_failures =
      st.redis_failures := by
  unfold create_decision_record
  split_ifs <;> rfl

/-- Decision creation never touches the processed-message counter. -/
theorem create_decision_record_msgs (w : IngestWorld) (mid : String)
    (ts : Int) (st : OrchestratorStats) :
    (create_decision_record w mid ts st).2.messages_processed =
      st.messages_processed := by
  unfold create_decision_record
  split_ifs <;> rfl

/-- Step 2 of the pipeline (decision creation, if worthy) never touches the
Redis failure counter. -/
theorem decision_step_redis (w : IngestWorld) (ents : ExtractedEntities)
    (mid mtext : String) (ts : Int) (st : OrchestratorStats) :
    ((if is_decision_worthy ents mtext then create_decision_record w mid ts st
      else (none, st)).2).redis_failures = st.redis_failures := by
  split
  · exact create_decision_record_redis w mid ts st
  · rfl

/-- Step 2 of the pipeline never touches the processed-message counter. -/
theorem decision_step_msgs (w : IngestWorld) (ents : ExtractedEntities)
    (mid mtext : String) (ts : Int) (st : OrchestratorStats) :
    ((if is_decision_worthy ents mtext then create_decision_record w mid ts st
      else (none, st)).2).messages_processed = st.messages_processed := by
  split
  · exact create_decision_record_msgs w mid ts st
  · rfl

/-- With Redis down the injection check degrades to "none found" without an
error. -/
theorem check_context_injection_redis_down (w : IngestWorld)
    (b : ExtractedEntities) (uid : String) (h : w.redisUp = false) :
    check_context_injection w b uid =
      ⟨false, false, none, none, none, none, none⟩ := by
  unfold check_context_injection
  rw [h]
  rfl

/-- The injection check either reports no error, or reports an error with no
injection and no gap. -/
theorem check_context_injection_cases (w : IngestWorld)
    (b : ExtractedEntities) (uid : String) :
    (check_context_injection w b uid).error = none ∨
    ((check_context_injection w b uid).error ≠ none ∧
     (check_context_injection w b uid).context_injected = false ∧
     (check_context_injection w b uid).gap_created = false) := by
  by_cases h1 : (if w.redisUp then w.channelBuffer else []).isEmpty = true
  · left
    simp [check_context_injection, h1]
  · have h1' : (if w.redisUp then w.channelBuffer else []).isEmpty = false := by
      revert h1
      cases (if w.redisUp then w.channelBuffer else []).isEmpty <;> simp
    by_cases h2 : (should_inject_context b
        ((if w.redisUp then w.channelBuffer else []).map fun m =>
          entitiesOfPayload m.entities) "medium").1 = true
    · rcases hr : w.responder with e | resp
      · right
        simp [check_context_injection, h1', h2, hr]
      · left
        simp [check_context_injection, h1', h2, hr]
    · have h2' : (should_inject_context b
          ((if w.redisUp then w.channelBuffer else []).map fun m =>
            entitiesOfPayload m.entities) "medium").1 = false := by
        revert h2
        cases (should_inject_context b
          ((if w.redisUp then w.channelBuffer else []).map fun m =>
            entitiesOfPayload m.entities) "medium").1 <;> simp
      left
      simp [check_context_injection, h1', h2']

/-! ### Claim theorem: failure semantics of the ingest pipeline -/

/-- C9: processing one message is total over every world of call outcomes:
an extraction fault yields the error dict with all flags cleared and
untouched counters (never an abort); a buffer failure increments
`redis_failures` while the pipeline proceeds without an error and context
injection degrades to none found; and any result carrying an error reports
no context injection and no gap. -/
theorem process_message_never_aborts (w : IngestWorld)
    (message_id channel_id user_id message_text : String) (timestamp : Int)
    (stats0 : OrchestratorStats) :
    (∀ e, w.extraction = .error e →
      (process_incoming_message w message_id channel_id user_id message_text
          timestamp stats0).1.error = some e ∧
      (process_incoming_message w message_id channel_id user_id message_text
          timestamp stats0).1.decision_created = false ∧
      (process_incoming_message w message_id channel_id user_id message_text
          timestamp stats0).1.context_injected = false ∧
      (process_incoming_message w message_id channel_id user_id message_text
          timestamp stats0).2 = stats0) ∧
    (∀ ents, w.extraction = .ok ents → w.redisUp = false →
      (process_incoming_message w message_id channel_id user_id message_text
          timestamp stats0).2.redis_failures = stats0.redis_failures + 1 ∧
      (process_incoming_message w message_id channel_id user_id message_text
          timestamp stats0).2.messages_processed =
        stats0.messages_processed + 1 ∧
      (process_incoming_message w message_id channel_id user_id message_text
          timestamp stats0).1.error = none ∧
      (process_incoming_message w message_id channel_id user_id message_text
          timestamp stats0).1.context_injected = false ∧
      (process_incoming_message w message_id channel_id user_id message_text
          timestamp stats0).1.gap_created = false) ∧
    (∀ e, (process_incoming_message w message_id channel_id user_id
        message_text timestamp stats0).1.error = some e →
      (process_incoming_message w message_id channel_id user_id message_text
          timestamp stats0).1.context_injected = false ∧
      (process_incoming_message w message_id channel_id user_id message_text
          timestamp stats0).1.gap_created = false) := by
  refine ⟨?_, ?_, ?_⟩
  · intro e he
    simp only [process_incoming_message, he]
    exact ⟨trivial, trivial, trivial, trivial⟩
  · intro ents hok hre
    have hctx := check_context_injection_redis_down w ents user_id hre
    simp only [process_incoming_message, hok, hre, hctx, Bool.not_false,
      if_true]
    refine ⟨?_, ?_, ?_, ?_, ?_⟩
    · rw [decision_step_redis]
    · rw [decision_step_msgs]
    · trivial
    · trivial
    · trivial
  · intro e he
    rcases hx : w.extraction with e0 | ents
    · simp only [process_incoming_message, hx]
      exact ⟨trivial, trivial⟩
    · simp only [process_incoming_message, hx] at he ⊢
      rcases check_context_injection_cases w ents user_id with hnone |
        ⟨_, hi, hg⟩
      · rw [hnone] at he
        cases he
      · exact ⟨hi, hg⟩

/-- A concrete world with Redis unreachable and a successful extraction. -/
def redisDownWorld : IngestWorld :=
  ⟨false, [], true, true, true, "1",
   .ok ⟨["REQ-245"], ["motor"], [], [], 1, 1⟩, .ok "ok", 1⟩

/-- Fresh counters. -/
def zeroStats : OrchestratorStats := ⟨0, 0, 0, 0, 0, 0⟩

/-- Witness for C9: with Redis down, the message is still processed — the
failure is counted and no error is returned. -/
theorem process_message_never_aborts_witness :
    redisDownWorld.extraction = .ok ⟨["REQ-245"], ["motor"], [], [], 1, 1⟩ ∧
    redisDownWorld.redisUp = false ∧
    ((process_incoming_message redisDownWorld "msg_001" "hardware-team" "bob"
        "hello" 0 zeroStats).2.redis_failures = zeroStats.redis_failures + 1 ∧
     (process_incoming_message redisDownWorld "msg_001" "hardware-team" "bob"
        "hello" 0 zeroStats).2.messages_processed =
       zeroStats.messages_processed + 1 ∧
     (process_incoming_message redisDownWorld "msg_001" "hardware-team" "bob"
        "hello" 0 zeroStats).1.error = none ∧
     (process_incoming_message redisDownWorld "msg_001" "hardware-team" "bob"
        "hello" 0 zeroStats).1.context_injected = false ∧
     (process_incoming_message redisDownWorld "msg_001" "hardware-team" "bob"
        "hello" 0 zeroStats).1.gap_created = false) :=
  ⟨rfl, rfl,
   (process_message_never_aborts redisDownWorld "msg_001" "hardware-team"
     "bob" "hello" 0 zeroStats).2.1 ⟨["REQ-245"], ["motor"], [], [], 1, 1⟩
     rfl rfl⟩

end KnowledgeAligner

